import Mathlib

/-!
Verification of the apx build-step orchestrator (src/apx/plugins/index.ts,
compiled to dist/index.js).

The plugin closure holds five mutable variables: `stopping`, `isRunningSteps`,
`timer`, `childProcesses`, and the module-level `specHashCache`.  All code runs
on Node's single-threaded event loop, so every synchronous segment between two
`await`/callback boundaries executes atomically.  We embed each such segment as
a pure transition on an explicit state record, and interleavings of the host's
lifecycle events as lists of events folded over that transition function.

Pure helpers (the `exit` handler's settlement decision, the `runAllSteps` step
loop, the Orval cache-gated action, and the output-directory guard) are
embedded directly as Lean functions on the data they touch.
-/

namespace Apx

/-- Model of a Node `ChildProcess` handle as tracked in `childProcesses`:
`pid` is `none` when the spawn failed and the handle carries no process id
(the code guards every signal on `proc.pid`). -/
structure Child where
  pid : Option Nat
deriving DecidableEq, Repr

/-- Mutable plugin state (dist/index.js lines 10-14) plus ghost bookkeeping.

Source variables: `stopping`, `isRunningSteps`, `timerVar` (the `timer`
variable: `some id` when it references a scheduled timeout, `none` for null),
`childProcesses`.  `pending` is the set of timeout ids that have been passed to
`setTimeout` and neither fired nor been cancelled by `clearTimeout`; `nextId`
is a fresh-id counter.  Ghost counters: `runsInFlight` counts runAllSteps
bodies that have been entered (line 100) but whose `finally` (line 119) has
not yet executed; `runsStarted` and `spawnCount` count entries and spawns;
`signalled` accumulates the pids that were sent a termination signal. -/
structure PState where
  stopping : Bool
  isRunningSteps : Bool
  timerVar : Option Nat
  pending : List Nat
  nextId : Nat
  childProcesses : List Child
  runsInFlight : Nat
  runsStarted : Nat
  spawnCount : Nat
  signalled : List Nat
deriving DecidableEq, Repr

/-- Initial state of a plugin instance (lines 10-14: all flags false, no
timer, no children). -/
def initState : PState :=
  { stopping := false, isRunningSteps := false, timerVar := none,
    pending := [], nextId := 0, childProcesses := [],
    runsInFlight := 0, runsStarted := 0, spawnCount := 0, signalled := [] }

/-- Atomic event-loop segments of the plugin.

`buildStart` is the host's build-start hook reaching `runAllSteps` (lines
182-187 with a non-empty step list); `runFinish` is the `finally` block of an
in-flight run completing (lines 118-120); `hotUpdate` is `handleHotUpdate` for
a file that is not ignore-matched (lines 188-215); `timerFire id` is the
debounce callback of timeout `id` executing (lines 203-213); `shellCmd pid`
is the synchronous body of `executeShellCommand` (lines 15-32), spawning a
child whose handle carries `pid`; `childExit pid` is the exit handler's
tracking removal (line 38); `stop` and `reset` are lines 139-158 and
159-165. -/
inductive Ev where
  | buildStart
  | runFinish
  | hotUpdate
  | timerFire (id : Nat)
  | shellCmd (pid : Option Nat)
  | childExit (pid : Option Nat)
  | stop
  | reset
deriving DecidableEq, Repr

/-- Synchronous entry of `runAllSteps` (lines 90-100): return unchanged when
`stopping` (line 91) or when `isRunningSteps` (line 95, the drop); otherwise
set `isRunningSteps := true` (line 100) and enter the run body.  The guard
check and the flag assignment run in one synchronous segment (no `await`
between lines 90 and 100), hence one atomic transition. -/
def enterRun (s : PState) : PState :=
  if s.stopping then s
  else if s.isRunningSteps then s
  else { s with isRunningSteps := true,
                runsInFlight := s.runsInFlight + 1,
                runsStarted := s.runsStarted + 1 }

/-- The `finally` block of `runAllSteps` (lines 118-120): `isRunningSteps :=
false`.  It executes exactly once per entered run body, so it is enabled only
while a run is in flight. -/
def finishRun (s : PState) : PState :=
  if s.runsInFlight = 0 then s
  else { s with isRunningSteps := false, runsInFlight := s.runsInFlight - 1 }

/-- The `clearTimeout`-and-null idiom (lines 144-147 and 199-202): if the
`timer` variable references a scheduled timeout, cancel that timeout and null
the reference; otherwise do nothing. -/
def clearTimer (s : PState) : PState :=
  match s.timerVar with
  | some tid => { s with pending := s.pending.filter (fun x => x ≠ tid),
                         timerVar := none }
  | none => s

/-- `handleHotUpdate` for a non-ignored file (lines 188-215): return when
`stopping` (line 190); otherwise `clearTimeout` on the referenced timeout if
any (lines 199-202) and arm a fresh timeout, storing its id in `timer`
(lines 203-214). -/
def hotUpdateStep (s : PState) : PState :=
  if s.stopping then s
  else
    { clearTimer s with timerVar := some s.nextId,
                        pending := s.nextId :: (clearTimer s).pending,
                        nextId := s.nextId + 1 }

/-- Body of the debounce callback after `timer = null` (lines 205-211):
return if `stopping`, else call `runAllSteps`, whose synchronous entry is
`enterRun`. -/
def timerCallbackRun (s : PState) : PState :=
  if s.stopping then s else enterRun s

/-- The debounce callback of timeout `tid` firing (lines 203-213): only a
still-scheduled timeout can fire; the callback sets `timer = null` (line
204) and proceeds with `timerCallbackRun`. -/
def timerFireStep (tid : Nat) (s : PState) : PState :=
  if tid ∈ s.pending then
    timerCallbackRun { s with pending := s.pending.filter (fun x => x ≠ tid),
                              timerVar := none }
  else s

/-- Synchronous body of `executeShellCommand` (lines 15-32): when `stopping`
the promise resolves without spawning (lines 17-21); otherwise the command is
spawned and its handle pushed onto `childProcesses` (lines 26-31).  The
`stopping` re-check at lines 50-53 runs in the same synchronous segment and
cannot observe a different value, so it is not a separate transition. -/
def spawnStep (pid : Option Nat) (s : PState) : PState :=
  if s.stopping then s
  else { s with spawnCount := s.spawnCount + 1,
                childProcesses := s.childProcesses ++ [⟨pid⟩] }

/-- Tracking removal in the exit handler (line 38): keep the handles whose
pid differs from the exiting child's. -/
def childExitStep (pid : Option Nat) (s : PState) : PState :=
  { s with childProcesses := s.childProcesses.filter (fun p => p.pid ≠ pid) }

/-- The `stop` function (lines 139-158): no-op when already stopping (line
140); else set `stopping` (line 143), `clearTimeout` the referenced timeout
(lines 144-147), send a termination signal to each tracked child that has a
pid (lines 148-154: the forEach guards on `proc.pid`, and `killProcess`
itself returns when `proc.pid` is absent), and empty the tracked list
(line 155). -/
def stopStep (s : PState) : PState :=
  if s.stopping then s
  else
    { clearTimer { s with stopping := true } with
        signalled := s.signalled ++ s.childProcesses.filterMap Child.pid,
        childProcesses := [] }

/-- The `reset` function (lines 159-165): set `stopping := false`, `timer :=
null`, `isRunningSteps := false`, `childProcesses := []`.  Note that it does
NOT call `clearTimeout`, so `pending` is untouched: a scheduled timeout whose
reference was dropped remains scheduled. -/
def resetStep (s : PState) : PState :=
  { s with stopping := false, timerVar := none,
           isRunningSteps := false, childProcesses := [] }

/-- One atomic event-loop segment. -/
def stepEv : Ev → PState → PState
  | .buildStart, s => enterRun s
  | .runFinish, s => finishRun s
  | .hotUpdate, s => hotUpdateStep s
  | .timerFire tid, s => timerFireStep tid s
  | .shellCmd pid, s => spawnStep pid s
  | .childExit pid, s => childExitStep pid s
  | .stop, s => stopStep s
  | .reset, s => resetStep s

/-- Folding a list of events over the transition function: one interleaving
of the plugin's asynchronous segments. -/
def runTrace : List Ev → PState → PState
  | [], s => s
  | e :: es, s => runTrace es (stepEv e s)

/-! Settlement of a shell command's promise (lines 37-49). -/

/-- Outcome of the promise returned by `executeShellCommand`. -/
inductive Settle where
  | resolved
  | rejected (code : Int)
deriving DecidableEq, Repr

/-- The `exit` handler's settlement decision (lines 39-48): a truthy `signal`
resolves (line 41), a non-zero `code` rejects with an error carrying the code
(line 44), otherwise the promise resolves (line 47).  When `signal` is null,
Node supplies a numeric `code`. -/
def exitSettle (code : Int) (signal : Option String) : Settle :=
  if signal.isSome then Settle.resolved
  else if code ≠ 0 then Settle.rejected code
  else Settle.resolved

/-! Debounce timing (lines 199-214 under a not-stopping, not-ignored burst). -/

/-- The debounce quiet period in milliseconds (line 213). -/
def debounceMs : Nat := 100

/-- Number of times the debounce callback reaches `runAllSteps` (line 211),
given the arrival times of successive non-ignored, non-stopping `fileChanged`
events in ascending order and the deadline of the currently armed timeout
(`none` when no timeout is armed).  An arriving event first lets an already
expired timeout fire (deadline ≤ arrival), then cancels any still-pending
timeout and arms a new one expiring `debounceMs` later (lines 199-213); after
the last event the remaining armed timeout fires. -/
def countRuns : List Nat → Option Nat → Nat
  | [], none => 0
  | [], some _ => 1
  | t :: ts, none => countRuns ts (some (t + debounceMs))
  | t :: ts, some d => (if d ≤ t then 1 else 0) + countRuns ts (some (t + debounceMs))

/-! The step loop of `runAllSteps` (lines 101-120), for a single run with
`stopping` false throughout. -/

/-- Result of one `runAllSteps` call: the propagated outcome, how many steps
were started, and the value of `isRunningSteps` after the call. -/
structure RunResult where
  outcome : Except String Unit
  executed : Nat
  isRunningAfter : Bool
deriving Repr

/-- The `for` loop over `steps` (lines 102-116), each step's
`executeAction` outcome given as an `Except`: a step that throws is logged
and rethrown (lines 112-115), ending the loop; a successful step lets the
loop continue.  Returns the propagated outcome and the number of steps
started. -/
def runStepsLoop : List (Except String Unit) → Except String Unit × Nat
  | [] => (Except.ok (), 0)
  | Except.error e :: _ => (Except.error e, 1)
  | Except.ok _ :: rs => ((runStepsLoop rs).1, (runStepsLoop rs).2 + 1)

/-- One `runAllSteps` call (lines 90-121) with its two entry guards and the
`finally` that clears `isRunningSteps` on every exit path (line 119). -/
def runAllSteps (stopping isRunningSteps : Bool)
    (acts : List (Except String Unit)) : RunResult :=
  if stopping then ⟨Except.ok (), 0, isRunningSteps⟩
  else if isRunningSteps then ⟨Except.ok (), 0, isRunningSteps⟩
  else ⟨(runStepsLoop acts).1, (runStepsLoop acts).2, false⟩

/-! The Orval step's cache-gated action (lines 231-254). -/

/-- Result of one invocation of the Orval action: the propagated outcome, the
`specHashCache` entry for the input path after the call, and whether
`generate` was invoked. -/
structure OrvalResult where
  outcome : Except String Unit
  cacheAfter : Option String
  generateInvoked : Bool
deriving Repr

/-- One invocation of the Orval action (lines 236-253) for one input path.
`hash` is the SHA-256 hex digest function; `fsContent` is the file's content
(`none` when `existsSync` is false, in which case the action warns and
returns, lines 237-240); `genResult` is what `await generate(...)` would do
(line 248); `cache` is the `specHashCache` entry for the path (line 243).
On a hash match the action returns without generating (lines 244-247); else
it generates and only then stores the hash (line 252), so a throwing
`generate` leaves the entry unchanged. -/
def orvalAction (hash : String → String) (fsContent : Option String)
    (genResult : Except String Unit) (cache : Option String) : OrvalResult :=
  match fsContent with
  | none => ⟨Except.ok (), cache, false⟩
  | some specContent =>
    if cache = some (hash specContent) then ⟨Except.ok (), cache, false⟩
    else
      match genResult with
      | Except.error e => ⟨Except.error e, cache, true⟩
      | Except.ok _ => ⟨Except.ok (), some (hash specContent), true⟩

/-! The output guard (lines 122-138). -/

/-- The slice of the file system that `ensureOutDirAndGitignore` touches:
whether the output directory exists, and the content of its `.gitignore`
(`none` when absent). -/
structure OutDirState where
  dirExists : Bool
  gitignore : Option String
deriving DecidableEq, Repr

/-- `ensureOutDirAndGitignore` (lines 122-138): no-op when `outDir` is unset
(lines 123-126); else create the directory if absent (lines 128-130) and
write `"*\n"` to `.gitignore` if absent (lines 131-134). -/
def ensureOutDirAndGitignore (outDir : Option String) (fs : OutDirState) :
    OutDirState :=
  match outDir with
  | none => fs
  | some _ =>
    let fs1 := if fs.dirExists then fs else { fs with dirExists := true }
    if fs1.gitignore.isSome then fs1 else { fs1 with gitignore := some "*\n" }

/-! Spawn options and `killProcess` (lines 26-30 and 56-74). -/

/-- The options record passed to `spawn` (lines 26-30). -/
structure SpawnOptions where
  stdio : String
  shell : Bool
  detached : Bool
deriving DecidableEq, Repr

/-- The literal options at lines 27-29: `stdio: "inherit"`, `shell: true`,
`detached: false`. -/
def apxSpawnOptions : SpawnOptions :=
  { stdio := "inherit", shell := true, detached := false }

/-- Whether the spawned child becomes the leader of its own process group.
Per Node's `child_process` semantics a child is placed in a new process group
exactly when `detached` is true; with `detached: false` it stays in the
parent's group (the source's own comment at line 29 of the TypeScript reads
"Keep in same process group for signal propagation"). -/
def ownProcessGroup (opts : SpawnOptions) : Bool := opts.detached

/-- Signals emitted by `killProcess`. -/
inductive KillAct where
  | groupTerm (pgid : Nat)
  | procTerm (pid : Nat)
  | procKill (pid : Nat)
deriving DecidableEq, Repr

/-- The `killProcess` function (lines 56-74): return when the handle has no
pid (lines 57-58); on POSIX attempt SIGTERM to the process group via negative
pid (line 61), on win32 SIGTERM to the process (line 64); if that first
signal throws, fall back to a direct SIGKILL (lines 67-72).
`firstSignalFails` models whether the environment makes the first signal
throw (e.g. ESRCH because no process group with that id exists). -/
def killProcess (isWin : Bool) (pid : Option Nat) (firstSignalFails : Bool) :
    List KillAct :=
  match pid with
  | none => []
  | some p =>
    let first := if isWin then KillAct.procTerm p else KillAct.groupTerm p
    if firstSignalFails then [first, KillAct.procKill p] else [first]

/-! Helper lemmas. -/

/-- Bookkeeping invariant tying `isRunningSteps` to the number of entered but
unfinished `runAllSteps` bodies. -/
def runInv (s : PState) : Prop :=
  s.runsInFlight = (if s.isRunningSteps then 1 else 0)

theorem runInv_congr (s s' : PState)
    (h1 : s'.runsInFlight = s.runsInFlight)
    (h2 : s'.isRunningSteps = s.isRunningSteps) (h : runInv s) : runInv s' := by
  unfold runInv at *
  rw [h1, h2]
  exact h

theorem clearTimer_runsInFlight (s : PState) :
    (clearTimer s).runsInFlight = s.runsInFlight := by
  unfold clearTimer
  cases s.timerVar <;> rfl

theorem clearTimer_isRunningSteps (s : PState) :
    (clearTimer s).isRunningSteps = s.isRunningSteps := by
  unfold clearTimer
  cases s.timerVar <;> rfl

theorem clearTimer_stopping (s : PState) :
    (clearTimer s).stopping = s.stopping := by
  unfold clearTimer
  cases s.timerVar <;> rfl

theorem clearTimer_spawnCount (s : PState) :
    (clearTimer s).spawnCount = s.spawnCount := by
  unfold clearTimer
  cases s.timerVar <;> rfl

theorem runInv_enterRun (s : PState) (h : runInv s) : runInv (enterRun s) := by
  unfold enterRun
  by_cases h1 : s.stopping = true
  · rw [if_pos h1]; exact h
  · rw [if_neg h1]
    by_cases h2 : s.isRunningSteps = true
    · rw [if_pos h2]; exact h
    · rw [if_neg h2]
      simp only [Bool.not_eq_true] at h2
      unfold runInv at *
      simp only [h2, Bool.false_eq_true, if_false] at h
      simp [h]

theorem runInv_finishRun (s : PState) (h : runInv s) : runInv (finishRun s) := by
  unfold finishRun
  by_cases h1 : s.runsInFlight = 0
  · rw [if_pos h1]; exact h
  · rw [if_neg h1]
    unfold runInv at *
    by_cases h2 : s.isRunningSteps = true
    · simp only [h2, if_true] at h
      simp [h]
    · simp only [Bool.not_eq_true] at h2
      simp only [h2, Bool.false_eq_true, if_false] at h
      exact absurd h h1

theorem runInv_timerCallback (s : PState) (h : runInv s) :
    runInv (timerCallbackRun s) := by
  unfold timerCallbackRun
  by_cases h1 : s.stopping = true
  · rw [if_pos h1]; exact h
  · rw [if_neg h1]; exact runInv_enterRun s h

theorem runInv_step (e : Ev) (s : PState) (he : e ≠ Ev.reset) (h : runInv s) :
    runInv (stepEv e s) := by
  cases e with
  | buildStart => exact runInv_enterRun s h
  | runFinish => exact runInv_finishRun s h
  | hotUpdate =>
    show runInv (hotUpdateStep s)
    unfold hotUpdateStep
    split
    · exact h
    · exact runInv_congr s _ (clearTimer_runsInFlight s) (clearTimer_isRunningSteps s) h
  | timerFire tid =>
    show runInv (timerFireStep tid s)
    unfold timerFireStep
    split
    · exact runInv_timerCallback _ (runInv_congr s _ rfl rfl h)
    · exact h
  | shellCmd pid =>
    show runInv (spawnStep pid s)
    unfold spawnStep
    split
    · exact h
    · exact runInv_congr s _ rfl rfl h
  | childExit pid => exact runInv_congr s _ rfl rfl h
  | stop =>
    show runInv (stopStep s)
    unfold stopStep
    split
    · exact h
    · exact runInv_congr s _ (clearTimer_runsInFlight _) (clearTimer_isRunningSteps _) h
  | reset => exact absurd rfl he

theorem runInv_trace (evs : List Ev) (s : PState) (hn : Ev.reset ∉ evs)
    (h : runInv s) : runInv (runTrace evs s) := by
  induction evs generalizing s with
  | nil => exact h
  | cons e es ih =>
    simp only [List.mem_cons, not_or] at hn
    exact ih _ hn.2 (runInv_step e s (fun hh => hn.1 hh.symm) h)

theorem timerCallback_stopping (s : PState) (h : s.stopping = true) :
    timerCallbackRun s = s := by
  unfold timerCallbackRun
  rw [if_pos h]

theorem enterRun_running (s : PState) (hs : s.isRunningSteps = true) :
    enterRun s = s := by
  unfold enterRun
  by_cases h1 : s.stopping = true
  · rw [if_pos h1]
  · rw [if_neg h1, if_pos hs]

theorem timerCallback_running (s : PState) (hs : s.isRunningSteps = true) :
    timerCallbackRun s = s := by
  unfold timerCallbackRun
  by_cases h1 : s.stopping = true
  · rw [if_pos h1]
  · rw [if_neg h1]
    exact enterRun_running s hs

theorem stopping_spawn_step (e : Ev) (s : PState) (he : e ≠ Ev.reset)
    (h : s.stopping = true) :
    (stepEv e s).stopping = true ∧ (stepEv e s).spawnCount = s.spawnCount := by
  cases e with
  | buildStart =>
    show (enterRun s).stopping = true ∧ (enterRun s).spawnCount = s.spawnCount
    unfold enterRun
    rw [if_pos h]
    exact ⟨h, rfl⟩
  | runFinish =>
    show (finishRun s).stopping = true ∧ (finishRun s).spawnCount = s.spawnCount
    unfold finishRun
    split
    · exact ⟨h, rfl⟩
    · exact ⟨h, rfl⟩
  | hotUpdate =>
    show (hotUpdateStep s).stopping = true ∧ (hotUpdateStep s).spawnCount = s.spawnCount
    unfold hotUpdateStep
    rw [if_pos h]
    exact ⟨h, rfl⟩
  | timerFire tid =>
    show (timerFireStep tid s).stopping = true
        ∧ (timerFireStep tid s).spawnCount = s.spawnCount
    unfold timerFireStep
    split
    · have hs1 : ({ s with
          pending := s.pending.filter (fun x => x ≠ tid),
          timerVar := none } : PState).stopping = true := h
      rw [timerCallback_stopping _ hs1]
      exact ⟨h, rfl⟩
    · exact ⟨h, rfl⟩
  | shellCmd pid =>
    show (spawnStep pid s).stopping = true ∧ (spawnStep pid s).spawnCount = s.spawnCount
    unfold spawnStep
    rw [if_pos h]
    exact ⟨h, rfl⟩
  | childExit pid => exact ⟨h, rfl⟩
  | stop =>
    show (stopStep s).stopping = true ∧ (stopStep s).spawnCount = s.spawnCount
    unfold stopStep
    rw [if_pos h]
    exact ⟨h, rfl⟩
  | reset => exact absurd rfl he

theorem no_spawn_after_stop (evs : List Ev) (s : PState)
    (hn : Ev.reset ∉ evs) (h : s.stopping = true) :
    (runTrace evs s).spawnCount = s.spawnCount := by
  induction evs generalizing s with
  | nil => rfl
  | cons e es ih =>
    simp only [List.mem_cons, not_or] at hn
    have hs := stopping_spawn_step e s (fun hh => hn.1 hh.symm) h
    calc (runTrace es (stepEv e s)).spawnCount
        = (stepEv e s).spawnCount := ih _ hn.2 hs.1
      _ = s.spawnCount := hs.2

theorem countRuns_armed (ts : List Nat) (t : Nat)
    (h : List.Chain (fun a b => b < a + debounceMs) t ts) :
    countRuns ts (some (t + debounceMs)) = 1 := by
  induction ts generalizing t with
  | nil => rfl
  | cons t2 ts ih =>
    cases h with
    | cons hlt htail =>
      unfold countRuns
      rw [if_neg (by omega)]
      simpa using ih t2 htail

theorem runStepsLoop_append (pre post : List (Except String Unit)) (e : String)
    (hpre : ∀ x ∈ pre, x = Except.ok ()) :
    runStepsLoop (pre ++ Except.error e :: post) = (Except.error e, pre.length + 1) := by
  induction pre with
  | nil => rfl
  | cons x xs ih =>
    have hx : x = Except.ok () := hpre x (by simp)
    subst hx
    rw [List.cons_append, runStepsLoop, ih (fun y hy => hpre y (by simp [hy]))]
    simp

theorem runInv_init : runInv initState := rfl

theorem orvalAction_some (hash : String → String) (c : String)
    (g : Except String Unit) (cache : Option String) :
    orvalAction hash (some c) g cache
      = if cache = some (hash c) then ⟨Except.ok (), cache, false⟩
        else match g with
          | Except.error e => ⟨Except.error e, cache, true⟩
          | Except.ok _ => ⟨Except.ok (), some (hash c), true⟩ := rfl

theorem orval_ok_cacheAfter (hash : String → String) (c : String)
    (cache : Option String) :
    (orvalAction hash (some c) (Except.ok ()) cache).cacheAfter = some (hash c) := by
  rw [orvalAction_some]
  by_cases h : cache = some (hash c)
  · rw [if_pos h]
    exact h
  · rw [if_neg h]

/-! Claim theorems. -/

/-- Claim C1: over every interleaving of the plugin's event-loop segments
within one build session (no `reset`), at most one `runAllSteps` body is in
flight at any time; a `buildStart` trigger arriving while `isRunningSteps` is
true leaves the state completely unchanged (dropped, not queued), and a
debounce-timer firing while `isRunningSteps` is true starts no run and
executes no step. -/
theorem runner_mutual_exclusion :
    (∀ evs : List Ev, Ev.reset ∉ evs → (runTrace evs initState).runsInFlight ≤ 1)
    ∧ (∀ s : PState, s.isRunningSteps = true → stepEv Ev.buildStart s = s)
    ∧ (∀ (tid : Nat) (s : PState), s.isRunningSteps = true →
        (stepEv (Ev.timerFire tid) s).runsStarted = s.runsStarted
        ∧ (stepEv (Ev.timerFire tid) s).spawnCount = s.spawnCount) := by
  refine ⟨?_, ?_, ?_⟩
  · intro evs hn
    have h := runInv_trace evs initState hn runInv_init
    unfold runInv at h
    rw [h]
    split_ifs <;> omega
  · intro s hs
    show enterRun s = s
    exact enterRun_running s hs
  · intro tid s hs
    show (timerFireStep tid s).runsStarted = s.runsStarted
        ∧ (timerFireStep tid s).spawnCount = s.spawnCount
    unfold timerFireStep
    split
    · have hs1 : ({ s with
          pending := s.pending.filter (fun x => x ≠ tid),
          timerVar := none } : PState).isRunningSteps = true := hs
      rw [timerCallback_running _ hs1]
      exact ⟨rfl, rfl⟩
    · exact ⟨rfl, rfl⟩

/-- Witness for C1 at concrete inputs: a two-trigger trace from the initial
state keeps at most one run in flight, and a trigger against a state with
`isRunningSteps = true` is dropped. -/
theorem runner_mutual_exclusion_witness :
    (runTrace [Ev.buildStart, Ev.buildStart, Ev.runFinish] initState).runsInFlight ≤ 1
    ∧ stepEv Ev.buildStart { initState with isRunningSteps := true }
        = { initState with isRunningSteps := true }
    ∧ ((stepEv (Ev.timerFire 0) { initState with isRunningSteps := true }).runsStarted
          = ({ initState with isRunningSteps := true } : PState).runsStarted
        ∧ (stepEv (Ev.timerFire 0) { initState with isRunningSteps := true }).spawnCount
          = ({ initState with isRunningSteps := true } : PState).spawnCount) :=
  ⟨runner_mutual_exclusion.1 _ (by decide),
   runner_mutual_exclusion.2.1 _ rfl,
   runner_mutual_exclusion.2.2 0 _ rfl⟩

/-- Claim C2: the promise of a shell-command step resolves when the child
exits with code 0, rejects carrying the exit code when the child exits with a
non-zero code, and resolves (not as an error) when the child is terminated by
a signal; the exit handler does not distinguish who sent the signal, so this
includes signals sent by the plugin itself. -/
theorem shell_exit_settlement :
    exitSettle 0 none = Settle.resolved
    ∧ (∀ c : Int, c ≠ 0 → exitSettle c none = Settle.rejected c)
    ∧ (∀ (c : Int) (sig : String), exitSettle c (some sig) = Settle.resolved) := by
  refine ⟨by simp [exitSettle], ?_, ?_⟩
  · intro c hc
    simp [exitSettle, hc]
  · intro c sig
    simp [exitSettle]

/-- Witness for C2 at exit code 2 and signal SIGTERM. -/
theorem shell_exit_settlement_witness :
    (2 : Int) ≠ 0 ∧ exitSettle 2 none = Settle.rejected 2 :=
  ⟨by decide, shell_exit_settlement.2.1 2 (by decide)⟩

/-- Claim C3 as stated is false at a concrete state: with one tracked child
whose handle carries no pid (a failed spawn), `stop()` sends a termination
signal to no process at all, because both the forEach at line 151 and
`killProcess` itself skip handles without a pid — so not every child process
tracked in `childProcesses` at that moment receives a signal. -/
theorem stop_signals_counterexample :
    ({ initState with childProcesses := [{ pid := none }] } : PState).childProcesses ≠ []
    ∧ (stepEv Ev.stop { initState with childProcesses := [{ pid := none }] }).signalled = [] := by
  decide

/-- Claim C3 (amended): once `stopping` is true, no new shell command is
spawned by any later event of the session (no `reset`), and `stop()` on a
non-stopping state sets `stopping`, sends a termination signal to exactly
those tracked child processes that have a process id, and empties the tracked
list. -/
theorem stop_semantics_amended :
    (∀ (evs : List Ev) (s : PState), Ev.reset ∉ evs → s.stopping = true →
        (runTrace evs s).spawnCount = s.spawnCount)
    ∧ (∀ s : PState, s.stopping = false →
        (stepEv Ev.stop s).stopping = true
        ∧ (stepEv Ev.stop s).signalled
            = s.signalled ++ s.childProcesses.filterMap Child.pid
        ∧ (stepEv Ev.stop s).childProcesses = []) := by
  refine ⟨fun evs s hn h => no_spawn_after_stop evs s hn h, fun s hs => ?_⟩
  have hstop : stopStep s
      = { clearTimer { s with stopping := true } with
            signalled := s.signalled ++ s.childProcesses.filterMap Child.pid,
            childProcesses := [] } := by
    unfold stopStep
    rw [if_neg (by rw [hs]; exact Bool.false_ne_true)]
  refine ⟨?_, ?_, ?_⟩
  · show (stopStep s).stopping = true
    rw [hstop]
    show (clearTimer { s with stopping := true }).stopping = true
    rw [clearTimer_stopping]
  · show (stopStep s).signalled = s.signalled ++ s.childProcesses.filterMap Child.pid
    rw [hstop]
  · show (stopStep s).childProcesses = []
    rw [hstop]

/-- Witness for the amended C3: a spawn attempted after a stop adds no
process, and `stop` on a state with one pid-carrying child signals that pid
and clears the tracked list. -/
theorem stop_semantics_amended_witness :
    (runTrace [Ev.shellCmd (some 7)] { initState with stopping := true }).spawnCount
      = ({ initState with stopping := true } : PState).spawnCount
    ∧ ((stepEv Ev.stop { initState with childProcesses := [{ pid := some 5 }] }).stopping = true
        ∧ (stepEv Ev.stop { initState with childProcesses := [{ pid := some 5 }] }).signalled
            = ({ initState with childProcesses := [{ pid := some 5 }] } : PState).signalled
              ++ ({ initState with childProcesses := [{ pid := some 5 }] } : PState).childProcesses.filterMap Child.pid
        ∧ (stepEv Ev.stop { initState with childProcesses := [{ pid := some 5 }] }).childProcesses = []) :=
  ⟨stop_semantics_amended.1 [Ev.shellCmd (some 7)] _ (by decide) rfl,
   stop_semantics_amended.2 _ rfl⟩

/-- Claim C4: for a burst of `n ≥ 1` non-ignored, non-stopping `fileChanged`
events, each arriving strictly within the 100 ms quiet period of the previous
one, exactly one debounce callback reaches `runAllSteps`: each arrival cancels
the pending timeout and arms a new one, and only the last armed timeout
fires. -/
theorem debounce_single_run (ts : List Nat) (h1 : ts ≠ [])
    (h2 : List.Chain' (fun a b => b < a + debounceMs) ts) :
    countRuns ts none = 1 := by
  cases ts with
  | nil => exact absurd rfl h1
  | cons t ts =>
    unfold countRuns
    exact countRuns_armed ts t h2

/-- Witness for C4: three events at 0 ms, 50 ms and 120 ms, each within
100 ms of the previous, produce exactly one run. -/
theorem debounce_single_run_witness :
    ([0, 50, 120] : List Nat) ≠ [] ∧ countRuns [0, 50, 120] none = 1 :=
  ⟨by decide, debounce_single_run [0, 50, 120] (by decide)
    (List.Chain.cons (by decide) (List.Chain.cons (by decide) List.Chain.nil))⟩

/-- Claim C5: when a step's action throws, the run aborts immediately — the
failing step is the last one started (`executed = pre.length + 1`, so no step
after it runs), the error propagates out of `runAllSteps`, `isRunningSteps`
is false after the call, and a later trigger against the resulting flag runs
the pipeline exactly as from idle. -/
theorem step_failure_aborts (pre post : List (Except String Unit)) (e : String)
    (hpre : ∀ x ∈ pre, x = Except.ok ()) :
    (runAllSteps false false (pre ++ Except.error e :: post)).outcome = Except.error e
    ∧ (runAllSteps false false (pre ++ Except.error e :: post)).executed = pre.length + 1
    ∧ (runAllSteps false false (pre ++ Except.error e :: post)).isRunningAfter = false
    ∧ (∀ acts, runAllSteps false
          (runAllSteps false false (pre ++ Except.error e :: post)).isRunningAfter acts
        = runAllSteps false false acts) := by
  have h := runStepsLoop_append pre post e hpre
  have hr : runAllSteps false false (pre ++ Except.error e :: post)
      = ⟨Except.error e, pre.length + 1, false⟩ := by
    unfold runAllSteps
    rw [if_neg Bool.false_ne_true, if_neg Bool.false_ne_true, h]
  rw [hr]
  exact ⟨rfl, rfl, rfl, fun acts => rfl⟩

/-- Witness for C5 on the pipeline [ok, error, ok]: the error propagates,
exactly two steps start, and the third never runs. -/
theorem step_failure_aborts_witness :
    (runAllSteps false false ([Except.ok ()] ++ Except.error "boom" :: [Except.ok ()])).outcome
        = Except.error "boom"
    ∧ (runAllSteps false false ([Except.ok ()] ++ Except.error "boom" :: [Except.ok ()])).executed
        = 2 := by
  have h := step_failure_aborts [Except.ok ()] [Except.ok ()] "boom" (by simp)
  exact ⟨h.1, h.2.1⟩

/-- Claim C6 as stated is false: the spawn options at lines 26-30 set
`detached: false`, so the child stays in the parent's process group instead
of becoming the leader of its own (the TypeScript source's own comment reads
"Keep in same process group for signal propagation"). -/
theorem own_process_group_counterexample :
    ownProcessGroup apxSpawnOptions = false := rfl

/-- Claim C6 (amended): every shell-command step is spawned with
`detached: false`, remaining in the parent's process group; `killProcess`
nevertheless attempts a graceful SIGTERM with negative-PID process-group
semantics on POSIX, and if that signal fails it escalates to a direct
forceful SIGKILL of the child. -/
theorem spawn_group_and_kill_amended :
    apxSpawnOptions.detached = false
    ∧ (∀ p : Nat, killProcess false (some p) false = [KillAct.groupTerm p])
    ∧ (∀ p : Nat, killProcess false (some p) true
        = [KillAct.groupTerm p, KillAct.procKill p]) :=
  ⟨rfl, fun _ => rfl, fun _ => rfl⟩

/-- Claim C7: after an Orval invocation on content `c` whose generation
succeeded, a second invocation on the same content skips `generate`; an
invocation on content whose hash differs from the cached one invokes
`generate`. -/
theorem orval_cache_skip (hash : String → String) (c c2 : String)
    (cache : Option String) (g2 g3 : Except String Unit) :
    (orvalAction hash (some c) g2
        (orvalAction hash (some c) (Except.ok ()) cache).cacheAfter).generateInvoked = false
    ∧ (hash c2 ≠ hash c →
        (orvalAction hash (some c2) g3
            (orvalAction hash (some c) (Except.ok ()) cache).cacheAfter).generateInvoked = true) := by
  rw [orval_ok_cacheAfter hash c cache]
  constructor
  · rw [orvalAction_some, if_pos rfl]
  · intro hne
    rw [orvalAction_some, if_neg (by intro hh; exact hne (Option.some.inj hh).symm)]
    cases g3 <;> rfl

/-- Witness for C7 with the identity digest: after a successful run on "a",
a run on "b" (different hash) invokes generate. -/
theorem orval_cache_skip_witness :
    (fun s : String => s) "b" ≠ (fun s : String => s) "a"
    ∧ (orvalAction (fun s => s) (some "b") (Except.ok ())
        (orvalAction (fun s => s) (some "a") (Except.ok ()) none).cacheAfter).generateInvoked = true :=
  ⟨by decide,
   (orval_cache_skip (fun s => s) "a" "b" none (Except.ok ()) (Except.ok ())).2 (by decide)⟩

/-- Claim C8: the cache entry is written only after `generate` succeeds — on
a throwing `generate` the entry for the path is exactly the pre-call value,
and when generation was actually invoked the error propagates, so a failed
run is never masked as a successful one. -/
theorem orval_cache_commit_after_success (hash : String → String)
    (fsContent : Option String) (cache : Option String) (e : String) :
    (orvalAction hash fsContent (Except.error e) cache).cacheAfter = cache
    ∧ ((orvalAction hash fsContent (Except.error e) cache).generateInvoked = true →
        (orvalAction hash fsContent (Except.error e) cache).outcome = Except.error e) := by
  cases fsContent with
  | none => exact ⟨rfl, fun h => by simp [orvalAction] at h⟩
  | some c =>
    rw [orvalAction_some]
    by_cases h : cache = some (hash c)
    · rw [if_pos h]
      exact ⟨rfl, fun hh => by simp at hh⟩
    · rw [if_neg h]
      exact ⟨rfl, fun _ => rfl⟩

/-- Witness for C8: a failing generation on content "x" with an empty cache
leaves the entry absent and propagates the error. -/
theorem orval_cache_commit_after_success_witness :
    (orvalAction (fun s => s) (some "x") (Except.error "gen failed") none).generateInvoked = true
    ∧ (orvalAction (fun s => s) (some "x") (Except.error "gen failed") none).outcome
        = Except.error "gen failed" :=
  ⟨rfl, (orval_cache_commit_after_success (fun s => s) (some "x") none "gen failed").2 rfl⟩

/-- Claim C9 as stated is false on a concrete trace: arm a debounce timeout
via a hot update, then `reset()`, then let the timeout fire — `reset` only
nulls the `timer` reference without `clearTimeout`, and it has just cleared
`stopping`, so the callback scheduled before the reset fires and starts a
pipeline run (`runsStarted = 1`, where the claim requires 0). -/
theorem reset_timer_counterexample :
    (runTrace [Ev.hotUpdate, Ev.reset, Ev.timerFire 0] initState).runsStarted = 1
    ∧ ¬ (runTrace [Ev.hotUpdate, Ev.reset, Ev.timerFire 0] initState).runsStarted = 0 := by
  decide

/-- Claim C9 (amended): after `reset()`, `stopping` is false,
`isRunningSteps` is false, the tracked child-process list is empty, and the
`timer` reference is null — but the set of scheduled timeouts is untouched
(`reset` performs no `clearTimeout`), so a debounce callback scheduled before
the reset may still fire and start a pipeline run. -/
theorem reset_clears_state_amended (s : PState) :
    (stepEv Ev.reset s).stopping = false
    ∧ (stepEv Ev.reset s).isRunningSteps = false
    ∧ (stepEv Ev.reset s).childProcesses = []
    ∧ (stepEv Ev.reset s).timerVar = none
    ∧ (stepEv Ev.reset s).pending = s.pending :=
  ⟨rfl, rfl, rfl, rfl, rfl⟩

/-- Claim C10: the output guard is idempotent — for any slice of file-system
state, running `ensureOutDirAndGitignore` twice yields the same
directory-and-marker state as running it once. -/
theorem ensure_idempotent (outDir : Option String) (fs : OutDirState) :
    ensureOutDirAndGitignore outDir (ensureOutDirAndGitignore outDir fs)
      = ensureOutDirAndGitignore outDir fs := by
  cases outDir with
  | none => rfl
  | some d =>
    rcases fs with ⟨de, gi⟩
    cases de <;> cases gi <;> rfl

end Apx
